import Mathlib

/-!
Shallow embedding of the Hermes VM string-representation subsystem
(`lib/VM/StringPrimitive.cpp`) and verification of its specification.

Characters are modelled as natural-number code units (narrow units are the
same numbers as their widened two-byte equivalents, so widening a narrow
unit on the fly is the identity on this representation).  Machine integers
are modelled as `Nat` with explicit `% 2^32` where the C++ code truncates
to `uint32_t`.  Fallible construction paths (`CallResult<HermesValue>`)
are modelled as `Except Err` values paired with the runtime state.
-/

namespace Hermes

/-- The two character encodings a string value can carry. -/
inductive Encoding
  | Narrow
  | Wide
deriving DecidableEq, Repr

/-- Where the character bytes of a string live. -/
inductive Storage
  | Inline
  | External
deriving DecidableEq, Repr

/-- A flattened string value.  `units` holds the code units already widened
to their numeric values; `id` models object identity (the address of the
allocation), so that "returns the very same instance" is expressible. -/
structure StringPrimitive where
  units : List Nat
  encoding : Encoding
  storage : Storage
  uniqueID : Option Nat
  id : Nat
deriving DecidableEq, Repr

/-- The single error category of this subsystem (`raiseRangeError`). -/
inductive Err
  | rangeError
deriving DecidableEq, Repr

/-- The runtime / GC state this subsystem interacts with: an allocation
counter used to stamp fresh object identities, the external-memory ledger
totals, and the collector's external-memory admission predicate
(`canAllocExternalMemory`). -/
structure Runtime where
  nextId : Nat
  creditedTotal : Nat
  debitedTotal : Nat
  canAllocExternalMemory : Nat → Bool

/-- Modelled from the spec: `MAX_STRING_LENGTH` is declared in
`StringPrimitive.h`, which is not part of the excerpt.  The spec only says
`length : u32` with invariant `length ≤ MAX_STRING_LENGTH`; we fix the
constant to 2^28, a representable `u32` value.  All theorems below depend
only on it being a fixed constant with `2 * MAX_STRING_LENGTH < 2^32`. -/
def MAX_STRING_LENGTH : Nat := 268435456

/-- Modelled from the spec: `EXTERNAL_STRING_MIN_SIZE` is declared in the
header, not the excerpt; the spec (§9) treats it as a tunable constant with
no stated derivation.  We fix a concrete value (larger than 1, smaller than
`MAX_STRING_LENGTH`). -/
def EXTERNAL_STRING_MIN_SIZE : Nat := 1024

/-- Modelled from the spec: the process-wide predefined empty-string
singleton (`Predefined::emptyString`), which owns the reserved identity 0. -/
def emptyString : StringPrimitive :=
  ⟨[], Encoding.Narrow, Storage.Inline, none, 0⟩

/-- Modelled from the spec: `runtime->getCharacterString(c)` serves length-1
strings from a process-wide cache, one entry per representable character
value, never freshly allocated.  Cached identities are `1 + c`. -/
def Runtime.getCharacterString (_rt : Runtime) (c : Nat) : StringPrimitive :=
  ⟨[c], if c < 128 then Encoding.Narrow else Encoding.Wide,
    Storage.Inline, none, 1 + c⟩

/-- Modelled from the spec: `isAllASCII` (from `hermes/Support/UTF8.h`)
scans the whole span and reports whether every code unit is ASCII. -/
def isAllASCII (l : List Nat) : Bool :=
  l.all (fun c => c < 128)

/-- `getStringLength()`: the character count of a string. -/
def StringPrimitive.getStringLength (s : StringPrimitive) : Nat :=
  s.units.length

/-- `isASCII()`: whether the value is Narrow-encoded. -/
def StringPrimitive.isASCII (s : StringPrimitive) : Bool :=
  match s.encoding with
  | Encoding.Narrow => true
  | Encoding.Wide => false

/-- `castToASCIIRef()`: the narrow code units of an ASCII string. -/
def StringPrimitive.castToASCIIRef (s : StringPrimitive) : List Nat :=
  s.units

/-- `castToUTF16Ref()`: the code units widened to two-byte values; on this
representation (numeric code units) widening is the identity. -/
def StringPrimitive.castToUTF16Ref (s : StringPrimitive) : List Nat :=
  s.units

/-- Modelled from the spec: `stringRefCompare` (header helper) is the
signed three-way lexicographic comparison over code-unit values, with
narrow units widened to their numeric equivalents on the fly. -/
def stringRefCompare : List Nat → List Nat → Int
  | [], [] => 0
  | [], _ :: _ => -1
  | _ :: _, [] => 1
  | a :: as, b :: bs =>
    if a < b then -1 else if b < a then 1 else stringRefCompare as bs

/-- Modelled from the spec: `stringRefEquals` (header helper) compares two
code-unit sequences for equality, length check included. -/
def stringRefEquals (a b : List Nat) : Bool :=
  a == b

/-- `StringPrimitive::sliceEquals` (StringPrimitive.cpp lines 130-148):
compares this string's window `[start, start+length)` against the whole of
`other`, dispatching on the four encoding combinations. -/
def StringPrimitive.sliceEquals (s : StringPrimitive) (start length : Nat)
    (other : StringPrimitive) : Bool :=
  if s.isASCII then
    if other.isASCII then
      stringRefEquals ((s.units.drop start).take length) other.castToASCIIRef
    else
      stringRefEquals ((s.units.drop start).take length) other.castToUTF16Ref
  else
    if other.isASCII then
      stringRefEquals ((s.units.drop start).take length) other.castToASCIIRef
    else
      stringRefEquals ((s.units.drop start).take length) other.castToUTF16Ref

/-- `StringPrimitive::equals` (lines 150-155): identity shortcut first,
then a full-window slice comparison. -/
def StringPrimitive.equals (s other : StringPrimitive) : Bool :=
  if s = other then true
  else s.sliceEquals 0 s.getStringLength other

/-- `StringPrimitive::compare` (lines 164-175): three-way comparison
dispatching on the four encoding combinations. -/
def StringPrimitive.compare (s other : StringPrimitive) : Int :=
  if s.isASCII then
    if other.isASCII then stringRefCompare s.castToASCIIRef other.castToASCIIRef
    else stringRefCompare s.castToASCIIRef other.castToUTF16Ref
  else
    if other.isASCII then stringRefCompare s.castToUTF16Ref other.castToASCIIRef
    else stringRefCompare s.castToUTF16Ref other.castToUTF16Ref

/-- A GC metadata builder, modelled as the list of field names the variant
declares as GC-traced references. -/
def symbolStringPrimitiveBuildMeta (mb : List String) : List String :=
  mb ++ ["uniqueID"]

/-- `DynamicASCIIStringPrimitiveBuildMeta` (lines 20-22): declares nothing. -/
def DynamicASCIIStringPrimitiveBuildMeta (mb : List String) : List String :=
  mb

/-- `DynamicUTF16StringPrimitiveBuildMeta` (lines 23-25): declares nothing. -/
def DynamicUTF16StringPrimitiveBuildMeta (mb : List String) : List String :=
  mb

/-- `DynamicUniquedASCIIStringPrimitiveBuildMeta` (lines 35-39). -/
def DynamicUniquedASCIIStringPrimitiveBuildMeta (mb : List String) : List String :=
  symbolStringPrimitiveBuildMeta mb

/-- `DynamicUniquedUTF16StringPrimitiveBuildMeta` (lines 41-45). -/
def DynamicUniquedUTF16StringPrimitiveBuildMeta (mb : List String) : List String :=
  symbolStringPrimitiveBuildMeta mb

/-- `ExternalASCIIStringPrimitiveBuildMeta` (lines 47-51): calls
`symbolStringPrimitiveBuildMeta`, so it declares the `uniqueID` field. -/
def ExternalASCIIStringPrimitiveBuildMeta (mb : List String) : List String :=
  symbolStringPrimitiveBuildMeta mb

/-- `ExternalUTF16StringPrimitiveBuildMeta` (lines 53-57). -/
def ExternalUTF16StringPrimitiveBuildMeta (mb : List String) : List String :=
  symbolStringPrimitiveBuildMeta mb

/-- `DynamicStringPrimitive<T, Uniqued>::create(runtime, Ref)` (lines
273-282): allocates fresh Inline storage sized to the span and copies the
span's characters in.  `narrow` stands for the template parameter
`T = char`; the `Uniqued` instantiation leaves the identifier unset at
creation.  The allocation stamps a fresh identity. -/
def DynamicStringPrimitive.create (narrow : Bool) (_uniqued : Bool)
    (rt : Runtime) (str : List Nat) : Runtime × StringPrimitive :=
  ({rt with nextId := rt.nextId + 1},
   ⟨str, if narrow then Encoding.Narrow else Encoding.Wide,
     Storage.Inline, none, rt.nextId⟩)

/-- `DynamicStringPrimitive<T, Uniqued>::create(runtime, length)` (lines
294-301): allocates fresh Inline storage of the given length with
uninitialized contents (modelled as zero fill). -/
def DynamicStringPrimitive.createWithLength (narrow : Bool) (_uniqued : Bool)
    (rt : Runtime) (length : Nat) : Runtime × StringPrimitive :=
  ({rt with nextId := rt.nextId + 1},
   ⟨List.replicate length 0, if narrow then Encoding.Narrow else Encoding.Wide,
     Storage.Inline, none, rt.nextId⟩)

/-- `ExternalStringPrimitive<T>::getStringByteSize()`: the buffer length
times the code-unit size `sizeof(T)`. -/
def StringPrimitive.getStringByteSize (sizeofT : Nat) (s : StringPrimitive) : Nat :=
  s.units.length * sizeofT

/-- `ExternalStringPrimitive<T>::create(runtime, StdString &&)` (lines
329-342): range-checks the buffer length, allocates a header-only object,
transfers the buffer, then credits the external-memory ledger with
`str.size() * sizeof(T)` (a `uint32_t`, hence the `% 2^32`). -/
def ExternalStringPrimitive.create (sizeofT : Nat) (rt : Runtime)
    (str : List Nat) : Runtime × Except Err StringPrimitive :=
  if MAX_STRING_LENGTH < str.length then
    (rt, Except.error Err.rangeError)
  else
    let allocSize := (str.length * sizeofT) % 4294967296
    ({rt with
        nextId := rt.nextId + 1,
        creditedTotal := rt.creditedTotal + allocSize},
     Except.ok
       ⟨str, if sizeofT = 1 then Encoding.Narrow else Encoding.Wide,
         Storage.External, none, rt.nextId⟩)

/-- `ExternalStringPrimitive<T>::createLongLived` (lines 344-362):
range-checks the length, asks `canAllocExternalMemory` for admission,
allocates in the long-lived region, constructs the uniqued variant with its
identifier set, and credits the ledger. -/
def ExternalStringPrimitive.createLongLived (sizeofT : Nat) (rt : Runtime)
    (str : List Nat) (uniqueID : Nat) : Runtime × Except Err StringPrimitive :=
  if MAX_STRING_LENGTH < str.length then
    (rt, Except.error Err.rangeError)
  else if !(rt.canAllocExternalMemory ((str.length * sizeofT) % 4294967296)) then
    (rt, Except.error Err.rangeError)
  else
    let allocSize := (str.length * sizeofT) % 4294967296
    ({rt with
        nextId := rt.nextId + 1,
        creditedTotal := rt.creditedTotal + allocSize},
     Except.ok
       ⟨str, if sizeofT = 1 then Encoding.Narrow else Encoding.Wide,
         Storage.External, some uniqueID, rt.nextId⟩)

/-- `ExternalStringPrimitive<T>::create(runtime, length)` (lines 364-377):
range-checks and asks for external-memory admission, then delegates to
buffer-transfer construction of a fresh zero-filled buffer. -/
def ExternalStringPrimitive.createWithLength (sizeofT : Nat) (rt : Runtime)
    (length : Nat) : Runtime × Except Err StringPrimitive :=
  if MAX_STRING_LENGTH < length then
    (rt, Except.error Err.rangeError)
  else if !(rt.canAllocExternalMemory ((length * sizeofT) % 4294967296)) then
    (rt, Except.error Err.rangeError)
  else
    ExternalStringPrimitive.create sizeofT rt (List.replicate length 0)

/-- `ExternalStringPrimitive<T>::_finalizeImpl` (lines 379-384): debits the
external-memory ledger with `getStringByteSize()`, re-derived from the
buffer rather than read from a cached field, then destroys the buffer. -/
def ExternalStringPrimitive.finalizeImpl (sizeofT : Nat) (rt : Runtime)
    (s : StringPrimitive) : Runtime :=
  {rt with debitedTotal := rt.debitedTotal + s.getStringByteSize sizeofT}

/-- Modelled from the spec: `StringPrimitive::create(runtime, length,
asciiNotUTF16)` (header-level entry point, §4.1 of the spec) always
allocates fresh Inline storage of the requested size and encoding, without
the empty/single-character/external fast paths. -/
def StringPrimitive.createFromLength (rt : Runtime) (length : Nat)
    (asciiNotUTF16 : Bool) : Runtime × StringPrimitive :=
  ({rt with nextId := rt.nextId + 1},
   ⟨List.replicate length 0,
     if asciiNotUTF16 then Encoding.Narrow else Encoding.Wide,
     Storage.Inline, none, rt.nextId⟩)

/-- Modelled from the spec: `StringPrimitive::create(runtime, span)`
(header-level entry point, §4.1) always allocates fresh Inline storage with
the span's characters and the span's encoding. -/
def StringPrimitive.createFromRef (rt : Runtime) (narrow : Bool)
    (str : List Nat) : Runtime × StringPrimitive :=
  ({rt with nextId := rt.nextId + 1},
   ⟨str, if narrow then Encoding.Narrow else Encoding.Wide,
     Storage.Inline, none, rt.nextId⟩)

/-- `StringPrimitive::createEfficientImpl` (lines 59-102): the construction
dispatch.  Empty span: the predefined singleton; single character: the
cached character string; owned storage of at least
`EXTERNAL_STRING_MIN_SIZE`: ownership transfer into an External value; else
an Inline value, Narrow if the source is 8-bit (`sizeofT = 1`) or a wide
source scans as all-ASCII, Wide otherwise. -/
def StringPrimitive.createEfficientImpl (sizeofT : Nat) (rt : Runtime)
    (str : List Nat) (optStorage : Option (List Nat)) :
    Runtime × Except Err StringPrimitive :=
  if str.length = 0 then
    (rt, Except.ok emptyString)
  else if str.length = 1 then
    (rt, Except.ok (rt.getCharacterString (str.headD 0)))
  else if optStorage.isSome ∧ EXTERNAL_STRING_MIN_SIZE ≤ str.length then
    ExternalStringPrimitive.create sizeofT rt (optStorage.getD str)
  else if sizeofT = 1 ∨ isAllASCII str = true then
    let p := StringPrimitive.createFromLength rt str.length true
    (p.1, Except.ok {p.2 with units := str})
  else
    let p := StringPrimitive.createFromRef rt (decide (sizeofT = 1)) str
    (p.1, Except.ok p.2)

/-- Modelled from the spec: the String Builder (§4.5, `StringBuilder.h` is
not part of the excerpt).  `createStringBuilder` pre-sizes a single flat
destination of the target length and encoding, failing with a range error
when the (overflow-checked) length exceeds `MAX_STRING_LENGTH`; appends
write into the destination; `getStringPrimitive` finalizes it. -/
structure StringBuilder where
  asciiNotUTF16 : Bool
  capacity : Nat
  units : List Nat
  id : Nat

/-- Modelled from the spec: `StringBuilder::createStringBuilder` allocates
the destination Inline string once, up front, with the requested total
length and encoding; the length arrives through an overflow-checked
`SafeUInt32` accumulator, and a range error is raised when it overflows or
exceeds `MAX_STRING_LENGTH`. -/
def StringBuilder.createStringBuilder (rt : Runtime) (length : Nat)
    (asciiNotUTF16 : Bool) : Runtime × Except Err StringBuilder :=
  if MAX_STRING_LENGTH < length then
    (rt, Except.error Err.rangeError)
  else
    ({rt with nextId := rt.nextId + 1},
     Except.ok ⟨asciiNotUTF16, length, [], rt.nextId⟩)

/-- Modelled from the spec: `StringBuilder::appendStringPrim` writes the
appended value's characters at the next unwritten offset, upconverting
narrow units into a wide destination as needed (the identity here). -/
def StringBuilder.appendStringPrim (b : StringBuilder)
    (s : StringPrimitive) : StringBuilder :=
  {b with units := b.units ++ s.units}

/-- Modelled from the spec: `StringBuilder::appendASCIIRef` /
`appendUTF16Ref` write a raw span at the next unwritten offset. -/
def StringBuilder.appendRef (b : StringBuilder) (l : List Nat) : StringBuilder :=
  {b with units := b.units ++ l}

/-- Modelled from the spec: `StringBuilder::getStringPrimitive` finalizes
the builder into its destination string. -/
def StringBuilder.getStringPrimitive (b : StringBuilder) : StringPrimitive :=
  ⟨b.units, if b.asciiNotUTF16 then Encoding.Narrow else Encoding.Wide,
    Storage.Inline, none, b.id⟩

/-- `StringPrimitive::concat` (lines 177-204): returns the other operand
unchanged when either is empty; otherwise sums the lengths through the
overflow-checked accumulator, builds with encoding Narrow only when both
operands are ASCII, and appends `x` then `y`. -/
def StringPrimitive.concat (rt : Runtime) (x y : StringPrimitive) :
    Runtime × Except Err StringPrimitive :=
  if x.getStringLength = 0 then
    (rt, Except.ok y)
  else if y.getStringLength = 0 then
    (rt, Except.ok x)
  else
    match StringBuilder.createStringBuilder rt
        (x.getStringLength + y.getStringLength) (x.isASCII && y.isASCII) with
    | (rt1, Except.error e) => (rt1, Except.error e)
    | (rt1, Except.ok b) =>
      (rt1, Except.ok ((b.appendStringPrim x).appendStringPrim
        y).getStringPrimitive)

/-- `StringPrimitive::slice` (lines 206-229): builds a fresh string of the
requested length with the source's encoding and copies the selected window
(the caller guarantees `start + length ≤ str.length`). -/
def StringPrimitive.slice (rt : Runtime) (str : StringPrimitive)
    (start length : Nat) : Runtime × Except Err StringPrimitive :=
  match StringBuilder.createStringBuilder rt length str.isASCII with
  | (rt1, Except.error e) => (rt1, Except.error e)
  | (rt1, Except.ok b) =>
    if str.isASCII then
      (rt1, Except.ok
        (b.appendRef ((str.units.drop start).take length)).getStringPrimitive)
    else
      (rt1, Except.ok
        (b.appendRef ((str.units.drop start).take length)).getStringPrimitive)

/-- Creating one external string and recording it, with its code-unit size,
for the reclamation phase; a rejected construction records nothing. -/
def createAndRecord (rt : Runtime) (req : Bool × List Nat) :
    Runtime × Option (Nat × StringPrimitive) :=
  let sizeofT := if req.1 then 2 else 1
  match ExternalStringPrimitive.create sizeofT rt req.2 with
  | (rt1, Except.ok s) => (rt1, some (sizeofT, s))
  | (rt1, Except.error _) => (rt1, none)

/-- A sequence of external-string constructions; each request is a wideness
flag (selecting `char16_t` versus `char`) and a buffer. -/
def createAll (rt : Runtime) : List (Bool × List Nat) →
    Runtime × List (Nat × StringPrimitive)
  | [] => (rt, [])
  | req :: rest =>
    match createAndRecord rt req with
    | (rt1, some p) =>
      let q := createAll rt1 rest
      (q.1, p :: q.2)
    | (rt1, none) => createAll rt1 rest

/-- Forced reclamation of every recorded external string: the collector
runs `_finalizeImpl` on each. -/
def finalizeAll (rt : Runtime) : List (Nat × StringPrimitive) → Runtime
  | [] => rt
  | p :: rest =>
    finalizeAll (ExternalStringPrimitive.finalizeImpl p.1 rt p.2) rest

/-- The total byte size of a list of recorded external strings. -/
def byteSizes (l : List (Nat × StringPrimitive)) : Nat :=
  (l.map (fun p => p.2.getStringByteSize p.1)).sum

/-- A concrete runtime state for witnesses and counterexamples: allocation
identities start above the reserved singleton/cache range, the ledger is
empty, and the collector admits every external allocation. -/
def rt0 : Runtime :=
  ⟨70000, 0, 0, fun _ => true⟩

/-- A concrete Narrow one-character sample string. -/
def sampleNarrowA : StringPrimitive :=
  ⟨[97], Encoding.Narrow, Storage.Inline, none, 101⟩

/-- A concrete Wide one-character sample string. -/
def sampleWideB : StringPrimitive :=
  ⟨[98], Encoding.Wide, Storage.Inline, none, 102⟩

/-- A concrete Wide two-character sample string. -/
def sampleWideBC : StringPrimitive :=
  ⟨[98, 99], Encoding.Wide, Storage.Inline, none, 103⟩

/-- A valid Narrow string of the maximum representable length. -/
def maxNarrowX : StringPrimitive :=
  ⟨List.replicate MAX_STRING_LENGTH 97, Encoding.Narrow, Storage.Inline, none, 201⟩

/-- A second valid Narrow string of the maximum representable length. -/
def maxNarrowY : StringPrimitive :=
  ⟨List.replicate MAX_STRING_LENGTH 98, Encoding.Narrow, Storage.Inline, none, 202⟩

/-- An all-ASCII narrow buffer one unit longer than the representable
maximum. -/
def oversizeNarrowBuf : List Nat :=
  List.replicate (MAX_STRING_LENGTH + 1) 97

/-- An all-ASCII wide buffer one unit longer than the representable
maximum. -/
def oversizeWideBuf : List Nat :=
  List.replicate (MAX_STRING_LENGTH + 1) 65

/-- A concrete request sequence for the external-memory ledger witness. -/
def reqs0 : List (Bool × List Nat) :=
  [(false, [104, 105]), (true, [300, 66]), (true, [7])]

theorem stringRefCompare_self : ∀ (a : List Nat), stringRefCompare a a = 0
  | [] => rfl
  | x :: xs => by
    simp [stringRefCompare, stringRefCompare_self xs]

theorem stringRefCompare_neg :
    ∀ (a b : List Nat), stringRefCompare a b = -(stringRefCompare b a)
  | [], [] => rfl
  | [], _ :: _ => rfl
  | _ :: _, [] => rfl
  | a :: as, b :: bs => by
    rcases Nat.lt_trichotomy a b with h | h | h
    · simp [stringRefCompare, h, Nat.lt_asymm h]
    · subst h
      simp [stringRefCompare, stringRefCompare_neg as bs]
    · simp [stringRefCompare, h, Nat.lt_asymm h]

theorem stringRefCompare_eq_zero_iff :
    ∀ (a b : List Nat), stringRefCompare a b = 0 ↔ a = b
  | [], [] => by simp [stringRefCompare]
  | [], _ :: _ => by simp [stringRefCompare]
  | _ :: _, [] => by simp [stringRefCompare]
  | a :: as, b :: bs => by
    rcases Nat.lt_trichotomy a b with h | h | h
    · simp [stringRefCompare, h, Nat.ne_of_lt h]
    · subst h
      simp [stringRefCompare, stringRefCompare_eq_zero_iff as bs]
    · simp [stringRefCompare, h, Nat.lt_asymm h, (Nat.ne_of_lt h).symm]

theorem stringRefCompare_le_trans :
    ∀ (a b c : List Nat), stringRefCompare a b ≤ 0 →
      stringRefCompare b c ≤ 0 → stringRefCompare a c ≤ 0
  | [], _, [], _, _ => by simp [stringRefCompare]
  | [], _, _ :: _, _, _ => by simp [stringRefCompare]
  | _ :: _, [], _, h1, _ => by simp [stringRefCompare] at h1
  | _ :: _, _ :: _, [], _, h2 => by simp [stringRefCompare] at h2
  | a :: as, b :: bs, c :: cs, h1, h2 => by
    simp only [stringRefCompare] at h1 h2 ⊢
    rcases Nat.lt_trichotomy a b with hab | hab | hab
    · rcases Nat.lt_trichotomy b c with hbc | hbc | hbc
      · simp [Nat.lt_trans hab hbc]
      · subst hbc
        simp [hab]
      · simp [Nat.lt_asymm hbc, hbc] at h2
    · subst hab
      rcases Nat.lt_trichotomy a c with hac | hac | hac
      · simp [hac]
      · subst hac
        simp only [Nat.lt_irrefl, if_false] at h1 h2 ⊢
        exact stringRefCompare_le_trans as bs cs h1 h2
      · simp [Nat.lt_asymm hac, hac] at h2
    · simp [Nat.lt_asymm hab, hab] at h1

theorem compare_eq_stringRefCompare (s t : StringPrimitive) :
    StringPrimitive.compare s t = stringRefCompare s.units t.units := by
  unfold StringPrimitive.compare
  cases hs : s.isASCII <;> cases ht : t.isASCII <;>
    simp [StringPrimitive.castToASCIIRef, StringPrimitive.castToUTF16Ref]

theorem sliceEquals_full (s t : StringPrimitive) :
    StringPrimitive.sliceEquals s 0 s.getStringLength t = (s.units == t.units) := by
  unfold StringPrimitive.sliceEquals
  cases hs : s.isASCII <;> cases ht : t.isASCII <;>
    simp [stringRefEquals, StringPrimitive.getStringLength,
      StringPrimitive.castToASCIIRef, StringPrimitive.castToUTF16Ref]

theorem equals_iff_units_eq (s t : StringPrimitive) :
    StringPrimitive.equals s t = true ↔ s.units = t.units := by
  unfold StringPrimitive.equals
  by_cases h : s = t
  · subst h
    simp
  · simp [h, sliceEquals_full]

/-- C4: for all strings in any of the four Narrow/Wide encoding
combinations, `compare` is a signed three-way result inducing a valid total
order — sign-antisymmetric, transitive, lexicographic over code-unit values
with narrow units widened to their numeric equivalents — and `equals`
returns true if and only if `compare` returns zero. -/
theorem compare_total_order_equals_iff (u v w : StringPrimitive) :
    StringPrimitive.compare u v = -(StringPrimitive.compare v u) ∧
    (StringPrimitive.compare u v ≤ 0 → StringPrimitive.compare v w ≤ 0 →
      StringPrimitive.compare u w ≤ 0) ∧
    (StringPrimitive.equals u v = true ↔ StringPrimitive.compare u v = 0) ∧
    StringPrimitive.compare u v =
      stringRefCompare u.castToUTF16Ref v.castToUTF16Ref := by
  refine ⟨?_, ?_, ?_, ?_⟩
  · rw [compare_eq_stringRefCompare, compare_eq_stringRefCompare]
    exact stringRefCompare_neg _ _
  · rw [compare_eq_stringRefCompare, compare_eq_stringRefCompare,
      compare_eq_stringRefCompare]
    exact stringRefCompare_le_trans _ _ _
  · rw [equals_iff_units_eq, compare_eq_stringRefCompare]
    exact (stringRefCompare_eq_zero_iff _ _).symm
  · rw [compare_eq_stringRefCompare]
    rfl

/-- Witness for C4 at concrete strings: a Narrow "a" against a Wide "b" and
a Wide "bc". -/
theorem compare_total_order_equals_iff_witness :
    StringPrimitive.compare sampleNarrowA sampleWideB =
      -(StringPrimitive.compare sampleWideB sampleNarrowA) ∧
    StringPrimitive.compare sampleNarrowA sampleWideBC ≤ 0 ∧
    (StringPrimitive.equals sampleNarrowA sampleWideB = true ↔
      StringPrimitive.compare sampleNarrowA sampleWideB = 0) := by
  obtain ⟨h1, h2, h3, _⟩ :=
    compare_total_order_equals_iff sampleNarrowA sampleWideB sampleWideBC
  exact ⟨h1, h2 (by decide) (by decide), h3⟩

/-- C6: `concat(empty, x)` returns the very same instance as `x`, and
`concat(x, empty)` returns the very same instance as `x`, with no
allocation and no copy; the hypothesis is the data-model invariant that the
predefined singleton is the only zero-length string instance. -/
theorem concat_empty_identity (rt : Runtime) (x : StringPrimitive)
    (hsingleton : x.getStringLength = 0 → x = emptyString) :
    StringPrimitive.concat rt emptyString x = (rt, Except.ok x) ∧
    StringPrimitive.concat rt x emptyString = (rt, Except.ok x) := by
  constructor
  · simp [StringPrimitive.concat, emptyString, StringPrimitive.getStringLength]
  · by_cases hx : x.getStringLength = 0
    · rw [hsingleton hx]
      simp [StringPrimitive.concat, emptyString, StringPrimitive.getStringLength]
    · simp [StringPrimitive.concat, emptyString, StringPrimitive.getStringLength,
        hx]
      simp [StringPrimitive.getStringLength] at hx
      simp [hx]

/-- Witness for C6 at a concrete non-empty string. -/
theorem concat_empty_identity_witness :
    (sampleNarrowA.getStringLength = 0 → sampleNarrowA = emptyString) ∧
    StringPrimitive.concat rt0 emptyString sampleNarrowA =
      (rt0, Except.ok sampleNarrowA) ∧
    StringPrimitive.concat rt0 sampleNarrowA emptyString =
      (rt0, Except.ok sampleNarrowA) := by
  have h : sampleNarrowA.getStringLength = 0 → sampleNarrowA = emptyString := by
    intro h0
    exact absurd h0 (by decide)
  obtain ⟨h1, h2⟩ := concat_empty_identity rt0 sampleNarrowA h
  exact ⟨h, h1, h2⟩

/-- C8 counterexample: the external variants' metadata callbacks do declare
a traced field — they forward to `symbolStringPrimitiveBuildMeta`, which
adds the `uniqueID` field — contradicting the claim that external variants
declare no traced fields. -/
theorem buildMeta_external_counterexample :
    ExternalASCIIStringPrimitiveBuildMeta [] = ["uniqueID"] ∧
    ExternalUTF16StringPrimitiveBuildMeta [] ≠ ([] : List String) := by
  constructor
  · rfl
  · simp [ExternalUTF16StringPrimitiveBuildMeta, symbolStringPrimitiveBuildMeta]

/-- C8 (amended): the per-variant metadata callbacks declare as GC-traced
exactly the identifier field of the uniqued flat variants and of both
external variants; only the plain (non-uniqued) flat variants declare no
traced fields. -/
theorem buildMeta_traced_fields (mb : List String) :
    DynamicASCIIStringPrimitiveBuildMeta mb = mb ∧
    DynamicUTF16StringPrimitiveBuildMeta mb = mb ∧
    DynamicUniquedASCIIStringPrimitiveBuildMeta mb = mb ++ ["uniqueID"] ∧
    DynamicUniquedUTF16StringPrimitiveBuildMeta mb = mb ++ ["uniqueID"] ∧
    ExternalASCIIStringPrimitiveBuildMeta mb = mb ++ ["uniqueID"] ∧
    ExternalUTF16StringPrimitiveBuildMeta mb = mb ++ ["uniqueID"] :=
  ⟨rfl, rfl, rfl, rfl, rfl, rfl⟩

/-- C1 counterexample: two valid non-empty narrow strings, each of the
maximum representable length, for which `concat` raises a range error
instead of returning a string of the summed length. -/
theorem concat_range_counterexample :
    maxNarrowX.getStringLength ≠ 0 ∧ maxNarrowY.getStringLength ≠ 0 ∧
    (StringPrimitive.concat rt0 maxNarrowX maxNarrowY).2 =
      Except.error Err.rangeError := by
  have hx : maxNarrowX.getStringLength = MAX_STRING_LENGTH := by
    simp [maxNarrowX, StringPrimitive.getStringLength]
  have hy : maxNarrowY.getStringLength = MAX_STRING_LENGTH := by
    simp [maxNarrowY, StringPrimitive.getStringLength]
  have h0 : MAX_STRING_LENGTH ≠ 0 := by decide
  refine ⟨by rw [hx]; exact h0, by rw [hy]; exact h0, ?_⟩
  unfold StringPrimitive.concat
  rw [hx, hy, if_neg h0, if_neg h0]
  unfold StringBuilder.createStringBuilder
  rw [if_pos
    (by decide : MAX_STRING_LENGTH < MAX_STRING_LENGTH + MAX_STRING_LENGTH)]

/-- C1 (amended): for all non-empty strings `a` and `b` whose combined
length does not exceed `MAX_STRING_LENGTH`, `concat(a,b)` returns a fresh
string whose length equals `a.length + b.length`, whose character sequence
is `a`'s characters followed by `b`'s, regardless of the operands'
encodings, and which is Narrow-encoded exactly when both operands are
Narrow; larger combined lengths raise a range error. -/
theorem concat_spec (rt : Runtime) (x y : StringPrimitive)
    (hx : x.getStringLength ≠ 0) (hy : y.getStringLength ≠ 0)
    (hsum : x.getStringLength + y.getStringLength ≤ MAX_STRING_LENGTH) :
    ∃ out, StringPrimitive.concat rt x y =
        ({rt with nextId := rt.nextId + 1}, Except.ok out) ∧
      out.units = x.units ++ y.units ∧
      out.getStringLength = x.getStringLength + y.getStringLength ∧
      (out.encoding = Encoding.Narrow ↔
        (x.encoding = Encoding.Narrow ∧ y.encoding = Encoding.Narrow)) ∧
      out.storage = Storage.Inline ∧
      out.id = rt.nextId := by
  unfold StringPrimitive.concat
  rw [if_neg hx, if_neg hy]
  unfold StringBuilder.createStringBuilder
  rw [if_neg (Nat.not_lt.mpr hsum)]
  refine ⟨_, rfl, ?_, ?_, ?_, rfl, rfl⟩
  · simp [StringBuilder.appendStringPrim, StringBuilder.getStringPrimitive]
  · simp [StringBuilder.appendStringPrim, StringBuilder.getStringPrimitive,
      StringPrimitive.getStringLength]
  · simp only [StringBuilder.appendStringPrim, StringBuilder.getStringPrimitive]
    cases hex : x.encoding <;> cases hey : y.encoding <;>
      simp [StringPrimitive.isASCII, hex, hey]

/-- Witness for C1 at concrete strings: a Narrow "a" and a Wide "bc". -/
theorem concat_spec_witness :
    sampleNarrowA.getStringLength ≠ 0 ∧ sampleWideBC.getStringLength ≠ 0 ∧
    sampleNarrowA.getStringLength + sampleWideBC.getStringLength ≤
      MAX_STRING_LENGTH ∧
    ∃ out, StringPrimitive.concat rt0 sampleNarrowA sampleWideBC =
        ({rt0 with nextId := rt0.nextId + 1}, Except.ok out) ∧
      out.units = sampleNarrowA.units ++ sampleWideBC.units ∧
      out.getStringLength =
        sampleNarrowA.getStringLength + sampleWideBC.getStringLength ∧
      (out.encoding = Encoding.Narrow ↔
        (sampleNarrowA.encoding = Encoding.Narrow ∧
          sampleWideBC.encoding = Encoding.Narrow)) ∧
      out.storage = Storage.Inline ∧
      out.id = rt0.nextId :=
  ⟨by decide, by decide, by decide,
    concat_spec rt0 sampleNarrowA sampleWideBC (by decide) (by decide)
      (by decide)⟩

/-- C5: `slice(s, start, length)` with `start + length ≤ s.length` (and the
data-model length invariant on `s`) returns a fresh string of the requested
length, with the same encoding as `s`, whose characters are `s`'s window
`[start, start+length)`, sharing no identity with the parent. -/
theorem slice_spec (rt : Runtime) (s : StringPrimitive) (start length : Nat)
    (hrange : start + length ≤ s.getStringLength)
    (hmax : s.getStringLength ≤ MAX_STRING_LENGTH) :
    ∃ out, StringPrimitive.slice rt s start length =
        ({rt with nextId := rt.nextId + 1}, Except.ok out) ∧
      out.units = (s.units.drop start).take length ∧
      out.getStringLength = length ∧
      out.encoding = s.encoding ∧
      out.storage = Storage.Inline ∧
      out.id = rt.nextId ∧
      (s.id < rt.nextId → out.id ≠ s.id) := by
  have hlen : ¬ (MAX_STRING_LENGTH < length) := by
    unfold StringPrimitive.getStringLength at hrange hmax
    omega
  unfold StringPrimitive.slice StringBuilder.createStringBuilder
  rw [if_neg hlen]
  cases hs : s.isASCII <;>
    simp only [hs, Bool.false_eq_true, if_false, if_true]
  · refine ⟨_, rfl, ?_, ?_, ?_, rfl, rfl, ?_⟩
    · simp [StringBuilder.appendRef, StringBuilder.getStringPrimitive]
    · simp [StringBuilder.appendRef, StringBuilder.getStringPrimitive,
        StringPrimitive.getStringLength]
      unfold StringPrimitive.getStringLength at hrange
      omega
    · simp only [StringBuilder.appendRef, StringBuilder.getStringPrimitive]
      cases hse : s.encoding <;> simp [StringPrimitive.isASCII, hse] at hs ⊢
    · intro h heq
      simp [StringBuilder.appendRef, StringBuilder.getStringPrimitive] at heq
      omega
  · refine ⟨_, rfl, ?_, ?_, ?_, rfl, rfl, ?_⟩
    · simp [StringBuilder.appendRef, StringBuilder.getStringPrimitive]
    · simp [StringBuilder.appendRef, StringBuilder.getStringPrimitive,
        StringPrimitive.getStringLength]
      unfold StringPrimitive.getStringLength at hrange
      omega
    · simp only [StringBuilder.appendRef, StringBuilder.getStringPrimitive]
      cases hse : s.encoding <;> simp [StringPrimitive.isASCII, hse] at hs ⊢
    · intro h heq
      simp [StringBuilder.appendRef, StringBuilder.getStringPrimitive] at heq
      omega

/-- Witness for C5: slicing a Wide two-character string down to its second
character. -/
theorem slice_spec_witness :
    1 + 1 ≤ sampleWideBC.getStringLength ∧
    sampleWideBC.getStringLength ≤ MAX_STRING_LENGTH ∧
    ∃ out, StringPrimitive.slice rt0 sampleWideBC 1 1 =
        ({rt0 with nextId := rt0.nextId + 1}, Except.ok out) ∧
      out.units = (sampleWideBC.units.drop 1).take 1 ∧
      out.getStringLength = 1 ∧
      out.encoding = sampleWideBC.encoding ∧
      out.storage = Storage.Inline ∧
      out.id = rt0.nextId ∧
      (sampleWideBC.id < rt0.nextId → out.id ≠ sampleWideBC.id) :=
  ⟨by decide, by decide,
    slice_spec rt0 sampleWideBC 1 1 (by decide) (by decide)⟩

/-- C7: every external construction path returns a discriminated result,
failing (with the state untouched, so no object allocated and no ledger
credit) exactly when the requested length exceeds `MAX_STRING_LENGTH`, or —
for `createLongLived` and the fresh zero-filled `create(length)` path only
— when `canAllocExternalMemory` rejects the requested byte size. -/
theorem external_create_error_conditions (rt : Runtime) (sizeofT : Nat)
    (str : List Nat) (length uniqueID : Nat) :
    (ExternalStringPrimitive.create sizeofT rt str =
        (rt, Except.error Err.rangeError) ↔
      MAX_STRING_LENGTH < str.length) ∧
    (ExternalStringPrimitive.createLongLived sizeofT rt str uniqueID =
        (rt, Except.error Err.rangeError) ↔
      (MAX_STRING_LENGTH < str.length ∨
        rt.canAllocExternalMemory ((str.length * sizeofT) % 4294967296) =
          false)) ∧
    (ExternalStringPrimitive.createWithLength sizeofT rt length =
        (rt, Except.error Err.rangeError) ↔
      (MAX_STRING_LENGTH < length ∨
        rt.canAllocExternalMemory ((length * sizeofT) % 4294967296) =
          false)) := by
  refine ⟨?_, ?_, ?_⟩
  · unfold ExternalStringPrimitive.create
    by_cases h : MAX_STRING_LENGTH < str.length
    · simp [h]
    · simp [h]
  · unfold ExternalStringPrimitive.createLongLived
    by_cases h : MAX_STRING_LENGTH < str.length
    · simp [h]
    · by_cases hc :
        rt.canAllocExternalMemory ((str.length * sizeofT) % 4294967296) = false
      · simp [h, hc]
      · have hct :
            rt.canAllocExternalMemory ((str.length * sizeofT) % 4294967296) =
              true := by
          cases hh :
            rt.canAllocExternalMemory ((str.length * sizeofT) % 4294967296)
          · exact absurd hh hc
          · rfl
        simp [h, hct]
  · unfold ExternalStringPrimitive.createWithLength
    by_cases h : MAX_STRING_LENGTH < length
    · simp [h]
    · by_cases hc :
        rt.canAllocExternalMemory ((length * sizeofT) % 4294967296) = false
      · simp [h, hc]
      · have hct :
            rt.canAllocExternalMemory ((length * sizeofT) % 4294967296) =
              true := by
          cases hh :
            rt.canAllocExternalMemory ((length * sizeofT) % 4294967296)
          · exact absurd hh hc
          · rfl
        simp [h, hct, ExternalStringPrimitive.create, Nat.not_lt.mp h]

/-- Witness for C7 at a concrete runtime state and small inputs. -/
theorem external_create_error_conditions_witness :
    ExternalStringPrimitive.createWithLength 2 rt0 5 =
        (rt0, Except.error Err.rangeError) ↔
      (MAX_STRING_LENGTH < 5 ∨
        rt0.canAllocExternalMemory ((5 * 2) % 4294967296) = false) :=
  (external_create_error_conditions rt0 2 [65, 66] 5 7).2.2

theorem createAndRecord_ledger (rt : Runtime) (req : Bool × List Nat) :
    (createAndRecord rt req).1.debitedTotal = rt.debitedTotal ∧
    (createAndRecord rt req).1.creditedTotal =
      rt.creditedTotal +
        (match (createAndRecord rt req).2 with
          | some p => p.2.getStringByteSize p.1
          | none => 0) := by
  obtain ⟨wide, buf⟩ := req
  by_cases h : MAX_STRING_LENGTH < buf.length
  · simp [createAndRecord, ExternalStringPrimitive.create, h]
  · have hlen : buf.length ≤ 268435456 := by
      unfold MAX_STRING_LENGTH at h
      omega
    cases wide
    · have hmod : (buf.length * 1) % 4294967296 = buf.length * 1 :=
        Nat.mod_eq_of_lt (by omega)
      simp [createAndRecord, ExternalStringPrimitive.create, h, hmod,
        StringPrimitive.getStringByteSize]
      omega
    · have hmod : (buf.length * 2) % 4294967296 = buf.length * 2 :=
        Nat.mod_eq_of_lt (by omega)
      simp [createAndRecord, ExternalStringPrimitive.create, h, hmod,
        StringPrimitive.getStringByteSize]

theorem createAll_ledger (reqs : List (Bool × List Nat)) :
    ∀ rt : Runtime,
      (createAll rt reqs).1.creditedTotal =
        rt.creditedTotal + byteSizes (createAll rt reqs).2 ∧
      (createAll rt reqs).1.debitedTotal = rt.debitedTotal := by
  induction reqs with
  | nil =>
    intro rt
    simp [createAll, byteSizes]
  | cons req rest ih =>
    intro rt
    have hstep := createAndRecord_ledger rt req
    unfold createAll
    cases hc : createAndRecord rt req with
    | mk rt1 orec =>
      rw [hc] at hstep
      cases orec with
      | none =>
        simp only at hstep ⊢
        obtain ⟨hs1, hs2⟩ := hstep
        obtain ⟨ihc, ihd⟩ := ih rt1
        exact ⟨by omega, by omega⟩
      | some p =>
        simp only at hstep ⊢
        obtain ⟨hs1, hs2⟩ := hstep
        obtain ⟨ihc, ihd⟩ := ih rt1
        unfold byteSizes at ihc ⊢
        simp only [List.map_cons, List.sum_cons]
        exact ⟨by omega, by omega⟩

theorem finalizeAll_creditedTotal (l : List (Nat × StringPrimitive)) :
    ∀ rt : Runtime, (finalizeAll rt l).creditedTotal = rt.creditedTotal := by
  induction l with
  | nil =>
    intro rt
    rfl
  | cons p rest ih =>
    intro rt
    simp [finalizeAll, ih, ExternalStringPrimitive.finalizeImpl]

theorem finalizeAll_debitedTotal (l : List (Nat × StringPrimitive)) :
    ∀ rt : Runtime,
      (finalizeAll rt l).debitedTotal = rt.debitedTotal + byteSizes l := by
  induction l with
  | nil =>
    intro rt
    simp [finalizeAll, byteSizes]
  | cons p rest ih =>
    intro rt
    simp [finalizeAll, ih, ExternalStringPrimitive.finalizeImpl, byteSizes]
    omega

/-- C3: the byte size debited by the finalizer equals the byte size
credited at construction — both re-derived from the buffer's length times
the code-unit size, the finalizer reading `getStringByteSize()` afresh — so
over any sequence of external-string constructions followed by forced
reclamation of all of them, total credited bytes equals total debited
bytes, with no leak and no double-debit. -/
theorem external_ledger_balanced (rt : Runtime) (reqs : List (Bool × List Nat))
    (hbal : rt.creditedTotal = rt.debitedTotal) :
    (∀ (szT : Nat) (buf : List Nat) (rt2 : Runtime) (s : StringPrimitive),
        szT ≤ 2 →
        (ExternalStringPrimitive.create szT rt2 buf).2 = Except.ok s →
        (ExternalStringPrimitive.create szT rt2 buf).1.creditedTotal =
          rt2.creditedTotal + s.getStringByteSize szT) ∧
    (finalizeAll (createAll rt reqs).1 (createAll rt reqs).2).creditedTotal =
      (finalizeAll (createAll rt reqs).1 (createAll rt reqs).2).debitedTotal := by
  constructor
  · intro szT buf rt2 s hszT hok
    unfold ExternalStringPrimitive.create at hok ⊢
    by_cases h : MAX_STRING_LENGTH < buf.length
    · simp [h] at hok
    · simp only [h, if_false] at hok ⊢
      injection hok with hok2
      subst hok2
      have hlen : buf.length ≤ 268435456 := by
        unfold MAX_STRING_LENGTH at h
        omega
      have hmod : (buf.length * szT) % 4294967296 = buf.length * szT :=
        Nat.mod_eq_of_lt (by nlinarith)
      simp [hmod, StringPrimitive.getStringByteSize]
  · obtain ⟨hc, hd⟩ := createAll_ledger reqs rt
    rw [finalizeAll_creditedTotal, finalizeAll_debitedTotal, hc, hd, hbal]

/-- Witness for C3: a concrete three-request construction sequence
(narrow, wide, wide) on the empty ledger, fully reclaimed. -/
theorem external_ledger_balanced_witness :
    rt0.creditedTotal = rt0.debitedTotal ∧
    (finalizeAll (createAll rt0 reqs0).1 (createAll rt0 reqs0).2).creditedTotal =
      (finalizeAll (createAll rt0 reqs0).1 (createAll rt0 reqs0).2).debitedTotal :=
  ⟨rfl, (external_ledger_balanced rt0 reqs0 rfl).2⟩

/-- C9 counterexample: the lower-level `DynamicStringPrimitive::create`
constructs a zero-length instance that is not the predefined singleton,
contradicting the claim that no construction operation of this subsystem
ever produces any other zero-length instance. -/
theorem zero_length_instance_counterexample :
    (DynamicStringPrimitive.create true false rt0 []).2.getStringLength = 0 ∧
    (DynamicStringPrimitive.create true false rt0 []).2 ≠ emptyString := by
  constructor
  · rfl
  · decide

/-- C9 (amended): every empty input to `createEfficient` is represented by
the predefined empty-string singleton, with no allocation; however, the
lower-level `DynamicStringPrimitive::create` paths construct fresh
zero-length instances distinct from the singleton when invoked on an empty
span. -/
theorem empty_singleton_amended (sizeofT : Nat) (rt : Runtime)
    (opt : Option (List Nat)) (narrow uniqued : Bool) :
    StringPrimitive.createEfficientImpl sizeofT rt [] opt =
      (rt, Except.ok emptyString) ∧
    (DynamicStringPrimitive.create narrow uniqued rt []).2.getStringLength = 0 ∧
    (0 < rt.nextId →
      (DynamicStringPrimitive.create narrow uniqued rt []).2 ≠ emptyString) := by
  refine ⟨?_, rfl, ?_⟩
  · simp [StringPrimitive.createEfficientImpl]
  · intro h heq
    have hid : rt.nextId = 0 := congrArg StringPrimitive.id heq
    omega

/-- Witness for C9's amended statement at a concrete runtime state. -/
theorem empty_singleton_amended_witness :
    StringPrimitive.createEfficientImpl 1 rt0 [] none =
      (rt0, Except.ok emptyString) ∧
    (DynamicStringPrimitive.create false true rt0 []).2.getStringLength = 0 ∧
    (DynamicStringPrimitive.create false true rt0 []).2 ≠ emptyString := by
  obtain ⟨h1, h2, h3⟩ := empty_singleton_amended 1 rt0 none false true
  exact ⟨h1, h2, h3 (by decide)⟩

theorem isAllASCII_replicate (n c : Nat) (h : c < 128) :
    isAllASCII (List.replicate n c) = true := by
  unfold isAllASCII
  induction n with
  | zero => rfl
  | succ m ih => simp [List.replicate_succ, h, ih]

/-- C2 counterexample: an owned all-ASCII 8-bit buffer longer than
`MAX_STRING_LENGTH` (hence also above `EXTERNAL_STRING_MIN_SIZE`) makes the
ownership-transfer path of `createEfficient` raise a range error instead of
transferring the buffer into a new External-storage value. -/
theorem createEfficient_external_range_counterexample :
    EXTERNAL_STRING_MIN_SIZE ≤ oversizeNarrowBuf.length ∧
    StringPrimitive.createEfficientImpl 1 rt0 oversizeNarrowBuf
      (some oversizeNarrowBuf) = (rt0, Except.error Err.rangeError) := by
  have hlen : oversizeNarrowBuf.length = MAX_STRING_LENGTH + 1 := by
    simp [oversizeNarrowBuf]
  refine ⟨by rw [hlen]; decide, ?_⟩
  unfold StringPrimitive.createEfficientImpl
  rw [hlen, if_neg (by decide : ¬ (MAX_STRING_LENGTH + 1 = 0)),
    if_neg (by decide : ¬ (MAX_STRING_LENGTH + 1 = 1)),
    if_pos ⟨rfl, by decide⟩]
  unfold ExternalStringPrimitive.create
  rw [Option.getD_some, hlen,
    if_pos (by decide : MAX_STRING_LENGTH < MAX_STRING_LENGTH + 1)]

/-- C2 (amended): `createEfficient` selects among its four outcomes in
priority order — empty span: the predefined singleton, no allocation;
single character: the cached character string, no allocation; owned buffer
of size at least `EXTERNAL_STRING_MIN_SIZE` (and, amended, at most
`MAX_STRING_LENGTH`, else a range error): ownership transfer into a new
External-storage value; otherwise a fresh Inline-storage value holding a
copy of the source, Narrow-encoded exactly when the source is 8-bit or
scans as all-ASCII. -/
theorem createEfficientImpl_spec (sizeofT : Nat) (rt : Runtime)
    (str : List Nat) (opt : Option (List Nat)) :
    (str.length = 0 →
      StringPrimitive.createEfficientImpl sizeofT rt str opt =
        (rt, Except.ok emptyString)) ∧
    (∀ c, str = [c] →
      StringPrimitive.createEfficientImpl sizeofT rt str opt =
        (rt, Except.ok (rt.getCharacterString c))) ∧
    (2 ≤ str.length → opt = some str →
      EXTERNAL_STRING_MIN_SIZE ≤ str.length →
      str.length ≤ MAX_STRING_LENGTH →
      ∃ out, (StringPrimitive.createEfficientImpl sizeofT rt str opt).2 =
          Except.ok out ∧
        out.storage = Storage.External ∧
        out.units = str ∧
        out.id = rt.nextId) ∧
    (2 ≤ str.length → (opt = none ∨ str.length < EXTERNAL_STRING_MIN_SIZE) →
      ∃ out, StringPrimitive.createEfficientImpl sizeofT rt str opt =
          ({rt with nextId := rt.nextId + 1}, Except.ok out) ∧
        out.storage = Storage.Inline ∧
        out.units = str ∧
        out.id = rt.nextId ∧
        (out.encoding = Encoding.Narrow ↔
          (sizeofT = 1 ∨ isAllASCII str = true))) := by
  refine ⟨?_, ?_, ?_, ?_⟩
  · intro h
    unfold StringPrimitive.createEfficientImpl
    rw [if_pos h]
  · intro c hc
    subst hc
    simp [StringPrimitive.createEfficientImpl]
  · intro h2 hopt hmin hmax
    subst hopt
    unfold StringPrimitive.createEfficientImpl
    rw [if_neg (by omega), if_neg (by omega), if_pos ⟨rfl, hmin⟩]
    unfold ExternalStringPrimitive.create
    rw [Option.getD_some, if_neg (Nat.not_lt.mpr hmax)]
    exact ⟨_, rfl, rfl, rfl, rfl⟩
  · intro h2 hcond
    unfold StringPrimitive.createEfficientImpl
    rw [if_neg (by omega), if_neg (by omega), if_neg ?_]
    · by_cases hasc : sizeofT = 1 ∨ isAllASCII str = true
      · rw [if_pos hasc]
        refine ⟨_, rfl, rfl, rfl, rfl, ?_⟩
        simp [StringPrimitive.createFromLength, hasc]
      · rw [if_neg hasc]
        have hsz : ¬ (sizeofT = 1) := fun h => hasc (Or.inl h)
        have hba : isAllASCII str = false := by
          cases hb : isAllASCII str
          · rfl
          · exact absurd (Or.inr hb) hasc
        refine ⟨_, rfl, rfl, rfl, rfl, ?_⟩
        simp [StringPrimitive.createFromRef, hsz, hba]
    · rcases hcond with h | h
      · subst h
        rintro ⟨hs, _⟩
        simp at hs
      · rintro ⟨_, hs⟩
        omega

/-- Witness for C2: a two-character 8-bit source with no owned storage goes
down the Inline path, and a singleton character goes to the cache. -/
theorem createEfficientImpl_spec_witness :
    (2 ≤ ([97, 98] : List Nat).length) ∧
    ∃ out, StringPrimitive.createEfficientImpl 1 rt0 [97, 98] none =
        ({rt0 with nextId := rt0.nextId + 1}, Except.ok out) ∧
      out.storage = Storage.Inline ∧
      out.units = [97, 98] ∧
      out.id = rt0.nextId ∧
      (out.encoding = Encoding.Narrow ↔
        ((1 : Nat) = 1 ∨ isAllASCII [97, 98] = true)) :=
  ⟨by decide,
    (createEfficientImpl_spec 1 rt0 [97, 98] none).2.2.2 (by decide)
      (Or.inl rfl)⟩

/-- C10 counterexample: the claim asserts that a wide all-ASCII span with a
supplied owned buffer of size at least `EXTERNAL_STRING_MIN_SIZE` yields a
Wide-encoded External string, but a buffer longer than
`MAX_STRING_LENGTH` raises a range error on the transfer path instead. -/
theorem wide_ascii_external_range_counterexample :
    isAllASCII oversizeWideBuf = true ∧
    EXTERNAL_STRING_MIN_SIZE ≤ oversizeWideBuf.length ∧
    StringPrimitive.createEfficientImpl 2 rt0 oversizeWideBuf
      (some oversizeWideBuf) = (rt0, Except.error Err.rangeError) := by
  have hlen : oversizeWideBuf.length = MAX_STRING_LENGTH + 1 := by
    simp [oversizeWideBuf]
  refine ⟨isAllASCII_replicate _ 65 (by decide), by rw [hlen]; decide, ?_⟩
  unfold StringPrimitive.createEfficientImpl
  rw [hlen, if_neg (by decide : ¬ (MAX_STRING_LENGTH + 1 = 0)),
    if_neg (by decide : ¬ (MAX_STRING_LENGTH + 1 = 1)),
    if_pos ⟨rfl, by decide⟩]
  unfold ExternalStringPrimitive.create
  rw [Option.getD_some, hlen,
    if_pos (by decide : MAX_STRING_LENGTH < MAX_STRING_LENGTH + 1)]

/-- C10 (amended): in `createEfficient` the ownership-transfer check
precedes the all-ASCII narrowing scan: a wide all-ASCII span with an owned
buffer of size at least `EXTERNAL_STRING_MIN_SIZE` (and, amended, at most
`MAX_STRING_LENGTH`) becomes a Wide-encoded External string — never
narrowed on the buffer-transfer path. -/
theorem external_transfer_keeps_wide (rt : Runtime) (str : List Nat)
    (hascii : isAllASCII str = true)
    (hmin : EXTERNAL_STRING_MIN_SIZE ≤ str.length)
    (hmax : str.length ≤ MAX_STRING_LENGTH) :
    ∃ out, StringPrimitive.createEfficientImpl 2 rt str (some str) =
        ({rt with nextId := rt.nextId + 1, creditedTotal := rt.creditedTotal + (str.length * 2) % 4294967296},
         Except.ok out) ∧
      out.encoding = Encoding.Wide ∧
      out.storage = Storage.External := by
  have h2 : 2 ≤ str.length := by
    unfold EXTERNAL_STRING_MIN_SIZE at hmin
    omega
  unfold StringPrimitive.createEfficientImpl
  rw [if_neg (by omega), if_neg (by omega), if_pos ⟨rfl, hmin⟩]
  unfold ExternalStringPrimitive.create
  rw [Option.getD_some, if_neg (Nat.not_lt.mpr hmax)]
  exact ⟨_, rfl, by simp, rfl⟩

/-- Witness for C10: a wide, entirely ASCII span of exactly the external
threshold size, with its owned buffer supplied. -/
theorem external_transfer_keeps_wide_witness :
    isAllASCII (List.replicate 1024 65) = true ∧
    EXTERNAL_STRING_MIN_SIZE ≤ (List.replicate 1024 (65 : Nat)).length ∧
    (List.replicate 1024 (65 : Nat)).length ≤ MAX_STRING_LENGTH ∧
    ∃ out, StringPrimitive.createEfficientImpl 2 rt0 (List.replicate 1024 65)
        (some (List.replicate 1024 65)) =
        ({rt0 with nextId := rt0.nextId + 1, creditedTotal := rt0.creditedTotal + (((List.replicate 1024 (65 : Nat)).length * 2) % 4294967296)},
         Except.ok out) ∧
      out.encoding = Encoding.Wide ∧
      out.storage = Storage.External :=
  ⟨isAllASCII_replicate 1024 65 (by decide),
    by rw [List.length_replicate]; decide,
    by rw [List.length_replicate]; decide,
    external_transfer_keeps_wide rt0 (List.replicate 1024 65)
      (isAllASCII_replicate 1024 65 (by decide))
      (by rw [List.length_replicate]; decide)
      (by rw [List.length_replicate]; decide)⟩

end Hermes
